import Mathlib

/-!
Verification development for the structural-schooling calibration model
(`src/model.py`).  Python floats are modelled as real numbers, `math.pow`
and `numpy.power` as `Real.rpow`, Python exceptions as `Except`/`Option`
results, and the unbounded Python recursion of the relative-expenditure
resolver by a fuel parameter that always suffices for the fixed
productivity-key schema of `make_model_data`.
-/

namespace StructuralSchooling

/-- Production indices of `model.py`: sector (A, M, S) paired with technology
(h = traditional, r = modern), written as the two-character strings of the
source (`Ah`, `Ar`, `Mh`, `Mr`, `Sh`, `Sr`). -/
inductive PIdx
  | Ah | Ar | Mh | Mr | Sh | Sr
deriving DecidableEq, BEq, Repr

/-- Sectors: agriculture, manufacturing, services. -/
inductive Sector
  | A | M | S
deriving DecidableEq, BEq, Repr

/-- The sector of a production index (its first character). -/
def PIdx.sector : PIdx → Sector
  | .Ah => .A | .Ar => .A | .Mh => .M | .Mr => .M | .Sh => .S | .Sr => .S

/-- Whether a production index ends in the modern-technology character `r`. -/
def PIdx.isModern : PIdx → Bool
  | .Ar => true | .Mr => true | .Sr => true | _ => false

/-- The index of the same sector with the technology flipped:
`over[0] + ("h" if over[1] == "r" else "r")` in the source. -/
def PIdx.flipTech : PIdx → PIdx
  | .Ah => .Ar | .Ar => .Ah | .Mh => .Mr | .Mr => .Mh | .Sh => .Sr | .Sr => .Sh

/-- Flow indices: the six production indices plus leisure (`"l"`). -/
inductive FIdx
  | prod (p : PIdx)
  | leisure
deriving DecidableEq, BEq, Repr

/-- `endswith("r")` on a flow index (leisure does not end in `r`). -/
def FIdx.isModern : FIdx → Bool
  | .prod p => p.isModern
  | .leisure => false

/-- The model-data record of `make_model_data`, with the `fixed` constants, the
female labor-share parameters `xi_*` (derived from input data at construction),
and the current values of the `calibrated` parameters.  The five calibrated
relative productivities `Z_ArAh, Z_MrMh, Z_SrSh, Z_ArSr, Z_MrSr` are stored as
the function `Z` on index pairs (only the five key pairs are ever read). -/
structure ModelData where
  eta : ℝ
  eta_l : ℝ
  epsilon : ℝ
  sigma : ℝ
  nu : ℝ
  zeta : ℝ
  rho : ℝ
  Lf : ℝ
  Lm : ℝ
  T : ℝ
  Z_Sr : ℝ
  tbeta : ℝ
  xi : FIdx → ℝ
  hat_c : ℝ
  varphi : ℝ
  beta_f : ℝ
  Z : PIdx × PIdx → ℝ

/-- The working-life discounter `d` of `make_discounter_fdf`. -/
noncomputable def discounter (M : ModelData) (s : ℝ) : ℝ :=
  1 / (-M.rho) * Real.exp (-M.rho * M.T) - 1 / (-M.rho) * Real.exp (-M.rho * s)

/-- The human-capital function `H` of `make_hc_fdf`. -/
noncomputable def humanCapital (M : ModelData) (s : ℝ) : ℝ :=
  Real.exp (M.zeta / (1 - M.nu) * s ^ (1 - M.nu))

/-- The working-life function `delta` of `make_working_life`. -/
def workingLife (M : ModelData) (s : ℝ) : ℝ := M.T - s

/-- `make_female_wage_bill`: the female share of the wage bill of a flow index.
Uses `eta_l` for leisure and `eta` otherwise; traditional indices and leisure
carry the human-capital/discounting adjustment factor. -/
noncomputable def make_female_wage_bill (M : ModelData) (indices : FIdx) :
    ℝ → ℝ → ℝ → ℝ :=
  let eta := if indices = FIdx.leisure then M.eta_l else M.eta
  let xi_i := M.xi indices
  let adjustment : ℝ → ℝ → ℝ :=
    if indices.isModern then fun _ _ => 1
    else fun sf sm =>
      discounter M sf * humanCapital M sf / discounter M sm / humanCapital M sm
  let A := (xi_i / (1 - xi_i)) ^ (-eta)
  fun tw sf sm =>
    1 / (1 + A * tw ^ (eta - 1) * adjustment sf sm ^ (eta - 1))

/-- `make_male_wage_bill`: one minus the female wage bill. -/
noncomputable def make_male_wage_bill (M : ModelData) (index : FIdx) :
    ℝ → ℝ → ℝ → ℝ :=
  fun tw sf sm => 1 - make_female_wage_bill M index tw sf sm

/-- The calibrated relative-productivity keys `Z_{over}{under}` of
`make_model_data`, in the insertion order of the `calibrated` dictionary. -/
def productivityKeys : List (PIdx × PIdx) :=
  [(.Ar, .Ah), (.Mr, .Mh), (.Sr, .Sh), (.Ar, .Sr), (.Mr, .Sr)]

/-- `has_relative_productivity`: 1 if the direct key is calibrated, -1 if the
inverse key is, 0 otherwise. -/
def has_relative_productivity (over under : PIdx) : ℤ :=
  if productivityKeys.contains (over, under) then 1
  else if productivityKeys.contains (under, over) then -1
  else 0

/-- `productivity_conjugate_right_indices`: right partners of calibrated keys
with the given left index. -/
def productivity_conjugate_right_indices (left : PIdx) : List PIdx :=
  productivityKeys.filterMap fun k => if k.1 = left then some k.2 else none

/-- `productivity_conjugate_left_indices`: left partners of calibrated keys
with the given right index. -/
def productivity_conjugate_left_indices (right : PIdx) : List PIdx :=
  productivityKeys.filterMap fun k => if k.2 = right then some k.1 else none

/-- `productivity_conjugate_indices`: the union of the two conjugate sets
(the fixed key schema produces no duplicates, so list append is the union). -/
def productivity_conjugate_indices (index : PIdx) : List PIdx :=
  productivity_conjugate_right_indices index ++ productivity_conjugate_left_indices index

/-- The same-sector branch of the default case of
`make_relative_consumption_expenditure` (equation C.41). -/
noncomputable def sameSectorLeaf (M : ModelData) (over under : PIdx) :
    ℝ → ℝ → ℝ → ℝ :=
  fun tw sf sm =>
    (M.Z (over, under) *
          (M.xi (.prod over) / M.xi (.prod under)) ^ (M.eta / (M.eta - 1)) *
          (make_female_wage_bill M (.prod under) tw sf sm /
              make_female_wage_bill M (.prod over) tw sf sm) ^ (1 / (M.eta - 1)) *
          discounter M sf * humanCapital M sf / discounter M 0) ^
      (M.sigma - 1)

/-- The cross-sector branch of the default case of
`make_relative_consumption_expenditure` (equations C.48/C.49); `Eii` and `Ejj`
are the recursively resolved own-sector modern/traditional expenditures of
`over` and `under`. -/
noncomputable def crossSectorLeaf (M : ModelData) (over under : PIdx)
    (Eii Ejj : ℝ → ℝ → ℝ → ℝ) : ℝ → ℝ → ℝ → ℝ :=
  fun tw sf sm =>
    M.Z (over, under) ^ (M.epsilon - 1) *
      ((M.xi (.prod over) / M.xi (.prod under)) ^ (M.eta / (M.eta - 1)) *
            (make_female_wage_bill M (.prod over) tw sf sm /
                make_female_wage_bill M (.prod under) tw sf sm) ^ (1 / (1 - M.eta))) ^
        (M.epsilon - 1) *
      (1 + 1 / Ejj tw sf sm) ^ ((M.sigma - M.epsilon) / (M.sigma - 1)) *
      (1 + 1 / Eii tw sf sm) ^ ((M.epsilon - M.sigma) / (M.sigma - 1))

/-- Fueled body of `make_relative_consumption_expenditure`.  The Python
function recurses without a structural measure; the fuel only has to dominate
the recursion depth, which is at most 5 for the fixed key schema.  The branch
where no chain of up to three intermediates exists indexes an empty list in the
source (a latent IndexError); it is modelled by the zero function and is
unreachable for the fixed key schema.  Note the source's three-intermediate
branch builds its third factor from `interject1` and `interject3` (the variable
is named `E_nyow` but receives `interject1`, not `interject2`). -/
noncomputable def relConsAux (M : ModelData) : ℕ → PIdx → PIdx → (ℝ → ℝ → ℝ → ℝ)
  | 0, _, _ => fun _ _ _ => 0
  | fuel + 1, over, under =>
    if over = under then fun _ _ _ => 1
    else if has_relative_productivity over under ≤ 0 then
      if has_relative_productivity over under = -1 then
        fun tw sf sm => 1 / relConsAux M fuel under over tw sf sm
      else
        match (productivity_conjugate_indices over).filter
            (fun k => (productivity_conjugate_indices under).contains k) with
        | k :: _ => fun tw sf sm =>
            relConsAux M fuel over k tw sf sm * relConsAux M fuel k under tw sf sm
        | [] =>
          match (productivity_conjugate_indices over).flatMap
              (fun left => (productivity_conjugate_indices left).filterMap fun right =>
                if (productivity_conjugate_indices under).contains right then
                  some (left, right)
                else none) with
          | (l, r) :: _ => fun tw sf sm =>
              relConsAux M fuel over l tw sf sm * relConsAux M fuel l r tw sf sm *
                relConsAux M fuel r under tw sf sm
          | [] =>
            match (productivity_conjugate_indices over).flatMap
                (fun left => (productivity_conjugate_indices left).flatMap fun middle =>
                  (productivity_conjugate_indices middle).filterMap fun right =>
                    if (productivity_conjugate_indices under).contains right then
                      some (left, middle, right)
                    else none) with
            | (l, mid, r) :: _ => fun tw sf sm =>
                relConsAux M fuel over l tw sf sm * relConsAux M fuel l mid tw sf sm *
                  relConsAux M fuel l r tw sf sm * relConsAux M fuel r under tw sf sm
            | [] => fun _ _ _ => 0
    else
      if over.sector = under.sector then sameSectorLeaf M over under
      else
        crossSectorLeaf M over under
          (relConsAux M fuel over over.flipTech) (relConsAux M fuel under under.flipTech)

/-- Fuel bound that dominates every recursion depth of the resolver on the
fixed key schema. -/
def relFuel : ℕ := 12

/-- `make_relative_consumption_expenditure`: relative consumption expenditure
between two production indices (direct, inverse, or chained through up to three
calibrated intermediates). -/
noncomputable def make_relative_consumption_expenditure
    (M : ModelData) (over under : PIdx) : ℝ → ℝ → ℝ → ℝ :=
  relConsAux M relFuel over under

/-- The list `model_data["sectors"]`. -/
def sectors_list : List Sector := [.A, .M, .S]

/-- `"{}r".format(s)`: the modern index of a sector. -/
def modern_of : Sector → PIdx
  | .A => .Ar | .M => .Mr | .S => .Sr

/-- `"{}h".format(s)`: the traditional index of a sector. -/
def traditional_of : Sector → PIdx
  | .A => .Ah | .M => .Mh | .S => .Sh

/-- `make_sectoral_expenditure_share_of_consumption` (equation C.52). -/
noncomputable def make_sectoral_expenditure_share_of_consumption
    (M : ModelData) (sector : Sector) : ℝ → ℝ → ℝ → ℝ :=
  fun tw sf sm =>
    let Eimihvs := sectors_list.map fun s =>
      make_relative_consumption_expenditure M (modern_of s) (traditional_of s) tw sf sm
    let Ejmihvs := sectors_list.map fun s =>
      make_relative_consumption_expenditure M (modern_of sector) (traditional_of s) tw sf sm
    let Ejmjhv :=
      make_relative_consumption_expenditure M (modern_of sector) (traditional_of sector)
        tw sf sm
    let A := Ejmjhv / (1 + Ejmjhv)
    1 / (List.zipWith (fun ei eji => A * (1 + ei) / eji) Eimihvs Ejmihvs).sum

/-- `make_relative_expenditure` restricted to production-index arguments (every
call the source makes with two production indices lands in its trivial or
non-leisure branch, i.e. here). -/
noncomputable def make_relative_expenditure_p (M : ModelData) (over under : PIdx) :
    ℝ → ℝ → ℝ → ℝ :=
  if over = under then fun _ _ _ => 1
  else make_relative_consumption_expenditure M over under

/-- The human-capital/discounting adjustment factor
`d(sf)/d(0) * delta(0)/delta(sf)` shared by the two labor-ratio factories;
a function of the female schooling argument `sf` only. -/
noncomputable def schooling_adjustment (M : ModelData) (sf : ℝ) : ℝ :=
  discounter M sf / discounter M 0 * workingLife M 0 / workingLife M sf

/-- The exponent `over.endswith("r") - under.endswith("r")` of the adjustment
factor in the labor-ratio factories, as a real number. -/
def modern_exponent (over under : PIdx) : ℝ :=
  (if over.isModern then (1 : ℝ) else 0) - (if under.isModern then (1 : ℝ) else 0)

/-- `make_female_labor_ratio` (equation D.9). -/
noncomputable def make_female_labor_ratio (M : ModelData) (over under : PIdx) :
    ℝ → ℝ → ℝ → ℝ :=
  fun tw sf sm =>
    make_relative_expenditure_p M over under tw sf sm *
        make_female_wage_bill M (.prod over) tw sf sm /
        make_female_wage_bill M (.prod under) tw sf sm *
      (discounter M sf / discounter M 0 * workingLife M 0 / workingLife M sf) ^
        ((if over.isModern then (1 : ℝ) else 0) - (if under.isModern then (1 : ℝ) else 0))

/-- `make_male_labor_ratio` (equation D.14): identical to the female ratio with
male wage bills; the adjustment factor is evaluated at `sf` there as well. -/
noncomputable def make_male_labor_ratio (M : ModelData) (over under : PIdx) :
    ℝ → ℝ → ℝ → ℝ :=
  fun tw sf sm =>
    make_relative_expenditure_p M over under tw sf sm *
        make_male_wage_bill M (.prod over) tw sf sm /
        make_male_wage_bill M (.prod under) tw sf sm *
      (discounter M sf / discounter M 0 * workingLife M 0 / workingLife M sf) ^
        ((if over.isModern then (1 : ℝ) else 0) - (if under.isModern then (1 : ℝ) else 0))

/-- The list of production indices in the iteration order
`for s in sectors for t in technologies`. -/
def production_list : List PIdx := [.Ah, .Ar, .Mh, .Mr, .Sh, .Sr]

/-- `make_aggregate_female_labor_ratio` (equation D.11). -/
noncomputable def make_aggregate_female_labor_ratio (M : ModelData) (index : PIdx) :
    ℝ → ℝ → ℝ → ℝ :=
  fun tw sf sm =>
    (production_list.map fun st => make_female_labor_ratio M st index tw sf sm).sum

/-- The fixed modern productivity `Z_{sector}r` read from `model_data["fixed"]`;
only `Z_Sr` exists there, and the base-sector scan of the source always selects
sector S, so other sectors are never looked up. -/
def fixed_modern_Z (M : ModelData) : Sector → ℝ
  | .S => M.Z_Sr
  | _ => 0

/-- The base sector selected by the scan
`[p[2:3] for p in model_data["fixed"] if re.search("Z_[AMS]r", p)][0]`:
the only matching fixed key is `Z_Sr`. -/
def base_sector : Sector := .S

/-- `make_implicit_female_traditional_technology_coefficient` (equation F.1). -/
noncomputable def make_implicit_female_traditional_technology_coefficient
    (M : ModelData) (sector : Sector) : ℝ → ℝ → ℝ → ℝ :=
  fun tw sf sm =>
    let ih := traditional_of sector
    let im := modern_of sector
    let Eihim := make_relative_consumption_expenditure M im ih
    let Ei := make_sectoral_expenditure_share_of_consumption M sector
    let Iim := make_female_wage_bill M (.prod im)
    let Rimih := make_female_labor_ratio M im ih
    (1 + Eihim tw sf sm) ^ (M.sigma / (M.sigma - 1)) *
        (Ei tw sf sm) ^ (M.epsilon / (1 - M.epsilon)) *
        fixed_modern_Z M sector *
        (M.xi (.prod im) / Iim tw sf sm) ^ (M.eta / (M.eta - 1)) *
        humanCapital M sf * workingLife M sf * Rimih tw sf sm

/-- `make_base_female_traditional_labor` (equation F.4); the base sector is S. -/
noncomputable def make_base_female_traditional_labor (M : ModelData) :
    ℝ → ℝ → ℝ → ℝ :=
  fun tw sf sm =>
    let ih := traditional_of base_sector
    let im := modern_of base_sector
    let Eimih := make_relative_consumption_expenditure M im ih
    let Ei := make_sectoral_expenditure_share_of_consumption M base_sector
    let Il := make_female_wage_bill M .leisure
    let Iih := make_female_wage_bill M (.prod ih)
    let Rih := make_aggregate_female_labor_ratio M ih
    let alpha := M.varphi * (1 + Eimih tw sf sm) / Ei tw sf sm * Il tw sf sm / Iih tw sf sm
    let Pih := make_implicit_female_traditional_technology_coefficient M base_sector
    (M.Lf + alpha * M.hat_c / Pih tw sf sm) / (Rih tw sf sm + alpha)

/-- `make_subsistence_consumption_share` (equation F.5). -/
noncomputable def make_subsistence_consumption_share (M : ModelData) :
    ℝ → ℝ → ℝ → ℝ :=
  fun tw sf sm =>
    M.hat_c /
        make_implicit_female_traditional_technology_coefficient M base_sector tw sf sm /
      make_base_female_traditional_labor M tw sf sm

/-- `make_non_subsistence_consumption_share`. -/
noncomputable def make_non_subsistence_consumption_share (M : ModelData) :
    ℝ → ℝ → ℝ → ℝ :=
  fun tw sf sm => 1 - make_subsistence_consumption_share M tw sf sm

/-- The `over == "l"` and `under` modern branch of `make_relative_expenditure`
(equation C.54). -/
noncomputable def relExpLeisureModern (M : ModelData) (under : PIdx) :
    ℝ → ℝ → ℝ → ℝ :=
  fun tw sf sm =>
    M.varphi * make_non_subsistence_consumption_share M tw sf sm /
        make_sectoral_expenditure_share_of_consumption M under.sector tw sf sm *
      (1 + make_relative_consumption_expenditure M under.flipTech under tw sf sm)

/-- Leisure-over-production relative expenditure: the modern branch directly,
the traditional branch composed through the sector's modern index. -/
noncomputable def relExpLeisure (M : ModelData) (under : PIdx) : ℝ → ℝ → ℝ → ℝ :=
  if under.isModern then relExpLeisureModern M under
  else fun tw sf sm =>
    relExpLeisureModern M under.flipTech tw sf sm *
      make_relative_expenditure_p M under.flipTech under tw sf sm

/-- `make_relative_expenditure`: relative expenditure on the full flow-index
taxonomy, wrapping `make_relative_consumption_expenditure` with the leisure
cases. -/
noncomputable def make_relative_expenditure (M : ModelData) (over under : FIdx) :
    ℝ → ℝ → ℝ → ℝ :=
  if over = under then fun _ _ _ => 1
  else
    match over, under with
    | .prod p, .leisure => fun tw sf sm => 1 / relExpLeisure M p tw sf sm
    | .leisure, .leisure => fun _ _ _ => 1
    | .leisure, .prod p => relExpLeisure M p
    | .prod o, .prod u => make_relative_consumption_expenditure M o u

/-- Abbreviation for the same-sector leaf of the agriculture pair. -/
noncomputable def leafA (M : ModelData) : ℝ → ℝ → ℝ → ℝ := sameSectorLeaf M .Ar .Ah

/-- Abbreviation for the same-sector leaf of the manufacturing pair. -/
noncomputable def leafM (M : ModelData) : ℝ → ℝ → ℝ → ℝ := sameSectorLeaf M .Mr .Mh

/-- Abbreviation for the same-sector leaf of the services pair. -/
noncomputable def leafS (M : ModelData) : ℝ → ℝ → ℝ → ℝ := sameSectorLeaf M .Sr .Sh

/-- Abbreviation for the cross-sector leaf of the `Z_ArSr` pair. -/
noncomputable def leafP (M : ModelData) : ℝ → ℝ → ℝ → ℝ :=
  crossSectorLeaf M .Ar .Sr (leafA M) (leafS M)

/-- Abbreviation for the cross-sector leaf of the `Z_MrSr` pair. -/
noncomputable def leafQ (M : ModelData) : ℝ → ℝ → ℝ → ℝ :=
  crossSectorLeaf M .Mr .Sr (leafM M) (leafS M)

/-- A concrete valid model instance: the fixed constants of `make_model_data`
(eta 2.27, epsilon 0.002, sigma 2, nu 0.58, zeta 0.32, rho 0.04, T 40),
representative female labor shares of one half, and calibrated values
`Z_ArSr = 2` and 1 for the remaining productivities. -/
noncomputable def M0 : ModelData where
  eta := 227 / 100
  eta_l := 227 / 100
  epsilon := 1 / 500
  sigma := 2
  nu := 29 / 50
  zeta := 8 / 25
  rho := 1 / 25
  Lf := 1
  Lm := 1
  T := 40
  Z_Sr := 1
  tbeta := 1
  xi := fun _ => 1 / 2
  hat_c := 0
  varphi := 1
  beta_f := 1
  Z := fun p => if p = (.Ar, .Sr) then 2 else 1

/-- A length-3 real vector, the solver state `(tw, sf, sm)`. -/
structure Vec3 where
  x : ℝ
  y : ℝ
  z : ℝ

/-- `numpy.linalg.norm`: the Euclidean norm. -/
noncomputable def norm3 (v : Vec3) : ℝ := Real.sqrt (v.x ^ 2 + v.y ^ 2 + v.z ^ 2)

/-- Componentwise vector addition. -/
def vadd (a b : Vec3) : Vec3 := ⟨a.x + b.x, a.y + b.y, a.z + b.z⟩

/-- Componentwise vector subtraction. -/
def vsub (a b : Vec3) : Vec3 := ⟨a.x - b.x, a.y - b.y, a.z - b.z⟩

/-- Scalar multiplication of a vector. -/
def vsmul (c : ℝ) (a : Vec3) : Vec3 := ⟨c * a.x, c * a.y, c * a.z⟩

/-- A 3x3 real matrix, row major. -/
structure Mat3 where
  a11 : ℝ
  a12 : ℝ
  a13 : ℝ
  a21 : ℝ
  a22 : ℝ
  a23 : ℝ
  a31 : ℝ
  a32 : ℝ
  a33 : ℝ

/-- Determinant of a 3x3 matrix. -/
def det3 (A : Mat3) : ℝ :=
  A.a11 * (A.a22 * A.a33 - A.a23 * A.a32) - A.a12 * (A.a21 * A.a33 - A.a23 * A.a31) +
    A.a13 * (A.a21 * A.a32 - A.a22 * A.a31)

open scoped Classical in
/-- `numpy.linalg.inv`: `none` models the `LinAlgError` raised on a singular
matrix, otherwise the adjugate-over-determinant inverse. -/
noncomputable def npInv (A : Mat3) : Option Mat3 :=
  if det3 A = 0 then none
  else
    some
      ⟨(A.a22 * A.a33 - A.a23 * A.a32) / det3 A, (A.a13 * A.a32 - A.a12 * A.a33) / det3 A,
        (A.a12 * A.a23 - A.a13 * A.a22) / det3 A, (A.a23 * A.a31 - A.a21 * A.a33) / det3 A,
        (A.a11 * A.a33 - A.a13 * A.a31) / det3 A, (A.a13 * A.a21 - A.a11 * A.a23) / det3 A,
        (A.a21 * A.a32 - A.a22 * A.a31) / det3 A, (A.a12 * A.a31 - A.a11 * A.a32) / det3 A,
        (A.a11 * A.a22 - A.a12 * A.a21) / det3 A⟩

/-- Matrix-vector product. -/
def mulVec3 (A : Mat3) (v : Vec3) : Vec3 :=
  ⟨A.a11 * v.x + A.a12 * v.y + A.a13 * v.z, A.a21 * v.x + A.a22 * v.y + A.a23 * v.z,
    A.a31 * v.x + A.a32 * v.y + A.a33 * v.z⟩

/-- The identity matrix. -/
def idMat3 : Mat3 := ⟨1, 0, 0, 0, 1, 0, 0, 0, 1⟩

/-- One central-finite-difference pass of `make_jacobian` at a given step.
The foc evaluation `F` returns `none` when it produces a NaN entry or raises a
`ZeroDivisionError`; in either case the matrix fails the source's
`isnan(np.sum(J))` check for this step, which `none` models here. -/
noncomputable def centralDiff (F : Vec3 → Option Vec3) (step : ℝ) (y : Vec3) :
    Option Mat3 := do
  let c1l ← F ⟨y.x - step / 2, y.y, y.z⟩
  let c1r ← F ⟨y.x + step / 2, y.y, y.z⟩
  let c2l ← F ⟨y.x, y.y - step / 2, y.z⟩
  let c2r ← F ⟨y.x, y.y + step / 2, y.z⟩
  let c3l ← F ⟨y.x, y.y, y.z - step / 2⟩
  let c3r ← F ⟨y.x, y.y, y.z + step / 2⟩
  some
    ⟨(c1r.x - c1l.x) / step, (c2r.x - c2l.x) / step, (c3r.x - c3l.x) / step,
      (c1r.y - c1l.y) / step, (c2r.y - c2l.y) / step, (c3r.y - c3l.y) / step,
      (c1r.z - c1l.z) / step, (c2r.z - c2l.z) / step, (c3r.z - c3l.z) / step⟩

/-- Fuel bound for the step-shrinking loop of `make_jacobian` (the loop runs
twice for the source's step parameters). -/
def jacFuel : ℕ := 64

open scoped Classical in
/-- The `while step > min_step` loop of `make_jacobian`: return the first
all-finite central difference, shrinking the step by 10 otherwise; raise
`ValueError("Jacobian calculation failed")` when the floor is reached. -/
noncomputable def jacobian_loop (F : Vec3 → Option Vec3) (minStep : ℝ) :
    ℕ → ℝ → Vec3 → Except String Mat3
  | 0, _, _ => .error ("Jacobian calculation failed")
  | fuel + 1, step, y =>
    if minStep < step then
      match centralDiff F step y with
      | some J => .ok J
      | none => jacobian_loop F minStep fuel (step / 10) y
    else .error ("Jacobian calculation failed")

/-- `make_jacobian` with the foc function abstracted as a parameter (the source
binds `F = make_foc(model_data)` and reads `step`/`min_step` from the
optimizer settings; the loop body is translated verbatim). -/
noncomputable def make_jacobian_core (F : Vec3 → Option Vec3) (step minStep : ℝ)
    (y : Vec3) : Except String Mat3 :=
  jacobian_loop F minStep jacFuel step y

/-- Result of `solve_foc`: the returned iterate `y`, the number of outer-loop
body executions `n`, and the convergence flag (false means the source printed
its non-convergence warning). -/
structure SolveResult where
  y : Vec3
  n : ℕ
  converged : Bool

/-- Fuel bound for the backtracking loop of `solve_foc` (with `lambda = 1` the
loop runs at most eight times). -/
def btFuel : ℕ := 64

open scoped Classical in
/-- The inner backtracking loop of `solve_foc`: divide `alam` by 10 while it
exceeds the 1e-6 floor, accept the candidate `y + alam * h` as soon as the
Jacobian evaluates without error, is invertible, and the residual norm strictly
decreases (a Jacobian returned by `make_jacobian` never contains NaN entries,
so the source's final `isnan` check always passes). -/
noncomputable def backtrack_loop (F : Vec3 → Vec3) (J : Vec3 → Except String Mat3)
    (Flen : ℝ) (y h : Vec3) : ℕ → ℝ → Option (ℝ × Vec3)
  | 0, _ => none
  | fuel + 1, alam =>
    if 1e-6 < alam then
      let a := alam / 10
      let yn := vadd y (vsmul a h)
      if (∃ Jvn, J yn = .ok Jvn ∧ (npInv Jvn).isSome) ∧ norm3 (F yn) < Flen then
        some (a, yn)
      else backtrack_loop F J Flen y h fuel a
    else none

open scoped Classical in
/-- The outer `while n <= maxn and not converged` loop of `solve_foc`, with the
fuel encoding the remaining admissible values of `n` (`fuel = maxn + 1 - n`).
State: the variables `y`, `yn`, `converged`, `n` of the source.  Errors model
the uncaught `ValueError`/`LinAlgError` raised at the outer level and the
failed-step `ValueError`. -/
noncomputable def solve_loop (F : Vec3 → Vec3) (J : Vec3 → Except String Mat3)
    (lam Ftol htol : ℝ) : ℕ → Vec3 → Vec3 → Bool → ℕ → Except String SolveResult
  | 0, y, _, conv, n => .ok ⟨y, n, conv⟩
  | fuel + 1, y, yn, conv, n =>
    if conv then .ok ⟨y, n, conv⟩
    else
      let y1 := yn
      let Fv := F y1
      match J y1 with
      | .error e => .error e
      | .ok Jv =>
        match npInv Jv with
        | none => .error ("Singular matrix")
        | some iJv =>
          let h := vsmul (-1) (mulVec3 iJv Fv)
          let Flen := norm3 Fv
          match backtrack_loop F J Flen y1 h btFuel (lam * 10) with
          | none => .error ("Household optimization solver failed to step")
          | some (_, yn1) =>
            let hlen := norm3 (vsub yn1 y1)
            solve_loop F J lam Ftol htol fuel y1 yn1
              (if Flen ≤ Ftol ∨ hlen ≤ htol then true else false) (n + 1)

/-- `solve_foc` with the foc function `F` and the Jacobian function `J`
abstracted as parameters (the source binds them from the model data in its
first two lines); `n` starts at 0, `yn` starts as a copy of `y`, and the loop
admits `n = 0, ..., maxn`. -/
noncomputable def solve_foc_core (F : Vec3 → Vec3) (J : Vec3 → Except String Mat3)
    (lam Ftol htol : ℝ) (maxn : ℕ) (y : Vec3) : Except String SolveResult :=
  solve_loop F J lam Ftol htol (maxn + 1) y y false 0

/-- The `errors` closure of `make_calibration` with the embedded
`solve_foc(model_data, x0)` call abstracted by its outcome: the source computes
the per-target absolute errors directly from the solver result, with no
exception handling around the solve, so a solver error leaves the closure by
propagation. -/
noncomputable def calibration_errors_core (solveOutcome : Except String Vec3)
    (targets : List (ℝ × (Vec3 → ℝ))) : Except String (List ℝ) :=
  match solveOutcome with
  | .error e => .error e
  | .ok y => .ok (targets.map fun p => |p.1 - p.2 y|)

/-- Synthetic foc for the solver run of the iteration-count analysis: a
one-dimensional quadratic in the first coordinate, affine in the others, so
that Newton halves the first coordinate each iteration. -/
def solF (v : Vec3) : Vec3 := ⟨v.x ^ 2, v.y + 1, v.z + 1⟩

/-- The finite-difference Jacobian of `solF` with the source's step settings
(central differences are exact on quadratics). -/
noncomputable def solJ : Vec3 → Except String Mat3 :=
  make_jacobian_core (fun v => some (solF v)) 1e-10 1e-12

open scoped Classical in
/-- Synthetic foc whose evaluations are clean only within 1e-12 of the base
point in every coordinate: the finite-difference Jacobian is NaN at steps
1e-10 and 1e-11 but clean at step 1e-12. -/
noncomputable def jacF : Vec3 → Option Vec3 := fun v =>
  if -1e-12 ≤ v.x ∧ v.x ≤ 1e-12 ∧ -1e-12 ≤ v.y ∧ v.y ≤ 1e-12 ∧ -1e-12 ≤ v.z ∧ v.z ≤ 1e-12
  then some v else none

/-- Synthetic foc with root `(-1, 0, 0)`, used to exhibit an accepted damped
Newton step with a negative component. -/
def btF2 (v : Vec3) : Vec3 := ⟨v.x + 1, v.y, v.z⟩

open scoped Classical in
/-- Synthetic foc whose residual norm at the candidates of the backtracking
loop decreases only once the damping factor reaches one tenth. -/
noncomputable def btF3 : Vec3 → Vec3 := fun v =>
  if v.x = 1 then ⟨2, 0, 0⟩ else if v.x = 1 / 10 then ⟨1 / 2, 0, 0⟩ else ⟨1, 0, 0⟩

/-! Structural evaluation of the resolver on the fixed key schema: each of the
pairs below reduces, by unfolding the Python recursion, to an explicit
composition of the five leaf formulas. -/

lemma relCons_ArAh (M : ModelData) :
    make_relative_consumption_expenditure M .Ar .Ah = leafA M := rfl

lemma relCons_MrMh (M : ModelData) :
    make_relative_consumption_expenditure M .Mr .Mh = leafM M := rfl

lemma relCons_SrSh (M : ModelData) :
    make_relative_consumption_expenditure M .Sr .Sh = leafS M := rfl

lemma relCons_ArSr (M : ModelData) :
    make_relative_consumption_expenditure M .Ar .Sr = leafP M := rfl

lemma relCons_MrSr (M : ModelData) :
    make_relative_consumption_expenditure M .Mr .Sr = leafQ M := rfl

lemma relCons_AhAr (M : ModelData) :
    make_relative_consumption_expenditure M .Ah .Ar =
      fun tw sf sm => 1 / leafA M tw sf sm := rfl

lemma relCons_SrMr (M : ModelData) :
    make_relative_consumption_expenditure M .Sr .Mr =
      fun tw sf sm => 1 / leafQ M tw sf sm := rfl

lemma relCons_ArMh (M : ModelData) :
    make_relative_consumption_expenditure M .Ar .Mh =
      fun tw sf sm =>
        leafP M tw sf sm * (1 / leafQ M tw sf sm) * leafM M tw sf sm := rfl

lemma relCons_ArSh (M : ModelData) :
    make_relative_consumption_expenditure M .Ar .Sh =
      fun tw sf sm => leafP M tw sf sm * leafS M tw sf sm := rfl

lemma relCons_MrAh (M : ModelData) :
    make_relative_consumption_expenditure M .Mr .Ah =
      fun tw sf sm =>
        leafQ M tw sf sm * (1 / leafP M tw sf sm) * leafA M tw sf sm := rfl

lemma relCons_MrSh (M : ModelData) :
    make_relative_consumption_expenditure M .Mr .Sh =
      fun tw sf sm => leafQ M tw sf sm * leafS M tw sf sm := rfl

lemma relCons_SrAh (M : ModelData) :
    make_relative_consumption_expenditure M .Sr .Ah =
      fun tw sf sm => 1 / leafP M tw sf sm * leafA M tw sf sm := rfl

lemma relCons_SrMh (M : ModelData) :
    make_relative_consumption_expenditure M .Sr .Mh =
      fun tw sf sm => 1 / leafQ M tw sf sm * leafM M tw sf sm := rfl

lemma relCons_AhMh (M : ModelData) :
    make_relative_consumption_expenditure M .Ah .Mh =
      fun tw sf sm =>
        1 / leafA M tw sf sm * leafP M tw sf sm *
            (leafP M tw sf sm * (1 / leafQ M tw sf sm)) * leafM M tw sf sm := rfl

lemma relCons_MhAh (M : ModelData) :
    make_relative_consumption_expenditure M .Mh .Ah =
      fun tw sf sm =>
        1 / leafM M tw sf sm * leafQ M tw sf sm *
            (leafQ M tw sf sm * (1 / leafP M tw sf sm)) * leafA M tw sf sm := rfl

/-! Evaluation of the primitive functions at the concrete model `M0` and the
point `(tw, sf, sm) = (1, 0, 0)`. -/

lemma discounter_pos (M : ModelData) (hrho : 0 < M.rho) (s : ℝ) (hs : s < M.T) :
    0 < discounter M s := by
  unfold discounter
  have h1 : Real.exp (-M.rho * M.T) < Real.exp (-M.rho * s) := by
    apply Real.exp_lt_exp.mpr; nlinarith
  have h2 : 1 / (-M.rho) < 0 := div_neg_of_pos_of_neg one_pos (by linarith)
  have h3 : 0 < 1 / (-M.rho) * (Real.exp (-M.rho * M.T) - Real.exp (-M.rho * s)) :=
    mul_pos_of_neg_of_neg h2 (by linarith)
  rw [mul_sub] at h3
  linarith

lemma discounter_nonneg (M : ModelData) (hrho : 0 < M.rho) (s : ℝ) (hs : s ≤ M.T) :
    0 ≤ discounter M s := by
  unfold discounter
  have h1 : Real.exp (-M.rho * M.T) ≤ Real.exp (-M.rho * s) := by
    apply Real.exp_le_exp.mpr; nlinarith
  have h2 : 1 / (-M.rho) ≤ 0 := le_of_lt (div_neg_of_pos_of_neg one_pos (by linarith))
  have h3 : 0 ≤ -(1 / (-M.rho)) * -(Real.exp (-M.rho * M.T) - Real.exp (-M.rho * s)) :=
    mul_nonneg (neg_nonneg.mpr h2) (neg_nonneg.mpr (by linarith))
  rw [neg_mul_neg, mul_sub] at h3
  linarith

lemma humanCapital_pos (M : ModelData) (s : ℝ) : 0 < humanCapital M s :=
  Real.exp_pos _

lemma humanCapital_M0_zero : humanCapital M0 0 = 1 := by
  have h0 : (0 : ℝ) ^ ((1 : ℝ) - M0.nu) = 0 :=
    Real.zero_rpow (by norm_num [M0])
  unfold humanCapital
  rw [h0, mul_zero, Real.exp_zero]

lemma discounter_M0_pos : 0 < discounter M0 0 :=
  discounter_pos M0 (by norm_num [M0]) 0 (by norm_num [M0])

lemma fwb_M0 (idx : FIdx) : make_female_wage_bill M0 idx 1 0 0 = 1 / 2 := by
  have hd : discounter M0 0 ≠ 0 := ne_of_gt discounter_M0_pos
  have hadj : discounter M0 0 * humanCapital M0 0 / discounter M0 0 /
      humanCapital M0 0 = 1 := by
    rw [humanCapital_M0_zero, mul_one, div_one, div_self hd]
  have hxi : ∀ j : FIdx, M0.xi j = 1 / 2 := fun _ => rfl
  cases idx with
  | leisure =>
    simp only [make_female_wage_bill, FIdx.isModern, hxi]
    norm_num [hadj, Real.one_rpow]
  | prod p =>
    cases p <;>
      simp only [make_female_wage_bill, FIdx.isModern, PIdx.isModern, hxi] <;>
      norm_num [hadj, Real.one_rpow]

lemma same_leaf_M0 (o u : PIdx) : sameSectorLeaf M0 o u 1 0 0 = M0.Z (o, u) := by
  have hd : discounter M0 0 ≠ 0 := ne_of_gt discounter_M0_pos
  have hxi : M0.xi (.prod o) / M0.xi (.prod u) = 1 := by norm_num [M0]
  have hsig : M0.sigma - 1 = 1 := by norm_num [M0]
  unfold sameSectorLeaf
  rw [fwb_M0, fwb_M0, humanCapital_M0_zero, hxi, Real.one_rpow, hsig, Real.rpow_one]
  rw [show (1 : ℝ) / 2 / (1 / 2) = 1 by norm_num, Real.one_rpow]
  field_simp

lemma cross_leaf_M0 (o u : PIdx) (Eii Ejj : ℝ → ℝ → ℝ → ℝ)
    (hii : Eii 1 0 0 = 1) (hjj : Ejj 1 0 0 = 1) :
    crossSectorLeaf M0 o u Eii Ejj 1 0 0 = M0.Z (o, u) ^ (M0.epsilon - 1) := by
  have hxi : M0.xi (.prod o) / M0.xi (.prod u) = 1 := by norm_num [M0]
  unfold crossSectorLeaf
  rw [fwb_M0, fwb_M0, hii, hjj, hxi, Real.one_rpow]
  rw [show (1 : ℝ) / 2 / (1 / 2) = 1 by norm_num, Real.one_rpow, one_mul, Real.one_rpow]
  rw [show (1 : ℝ) + 1 / 1 = 2 by norm_num]
  rw [show M0.Z (o, u) ^ (M0.epsilon - 1) * 1 *
        (2 : ℝ) ^ ((M0.sigma - M0.epsilon) / (M0.sigma - 1)) *
        (2 : ℝ) ^ ((M0.epsilon - M0.sigma) / (M0.sigma - 1)) =
      M0.Z (o, u) ^ (M0.epsilon - 1) *
        ((2 : ℝ) ^ ((M0.sigma - M0.epsilon) / (M0.sigma - 1)) *
          (2 : ℝ) ^ ((M0.epsilon - M0.sigma) / (M0.sigma - 1))) by ring]
  rw [← Real.rpow_add (by norm_num : (0 : ℝ) < 2)]
  rw [show (M0.sigma - M0.epsilon) / (M0.sigma - 1) +
      (M0.epsilon - M0.sigma) / (M0.sigma - 1) = 0 by ring]
  rw [Real.rpow_zero, mul_one]

lemma leafA_M0 : leafA M0 1 0 0 = 1 := by
  have h := same_leaf_M0 .Ar .Ah
  rw [show M0.Z (.Ar, .Ah) = 1 from rfl] at h
  exact h

lemma leafM_M0 : leafM M0 1 0 0 = 1 := by
  have h := same_leaf_M0 .Mr .Mh
  rw [show M0.Z (.Mr, .Mh) = 1 from rfl] at h
  exact h

lemma leafS_M0 : leafS M0 1 0 0 = 1 := by
  have h := same_leaf_M0 .Sr .Sh
  rw [show M0.Z (.Sr, .Sh) = 1 from rfl] at h
  exact h

lemma leafP_M0 : leafP M0 1 0 0 = (2 : ℝ) ^ (-(499 : ℝ) / 500) := by
  have h := cross_leaf_M0 .Ar .Sr (leafA M0) (leafS M0) leafA_M0 leafS_M0
  rw [show M0.Z (.Ar, .Sr) = 2 from rfl,
    show M0.epsilon - 1 = -(499 : ℝ) / 500 by norm_num [M0]] at h
  exact h

lemma leafQ_M0 : leafQ M0 1 0 0 = 1 := by
  have h := cross_leaf_M0 .Mr .Sr (leafM M0) (leafS M0) leafM_M0 leafS_M0
  rw [show M0.Z (.Mr, .Sr) = 1 from rfl, Real.one_rpow] at h
  exact h

lemma relExp_AhMh :
    make_relative_expenditure M0 (.prod .Ah) (.prod .Mh) =
      make_relative_consumption_expenditure M0 .Ah .Mh := rfl

lemma relExp_MhAh :
    make_relative_expenditure M0 (.prod .Mh) (.prod .Ah) =
      make_relative_consumption_expenditure M0 .Mh .Ah := rfl

lemma relCons_M0_AhMh_val :
    make_relative_consumption_expenditure M0 .Ah .Mh 1 0 0 =
      (2 : ℝ) ^ (-(499 : ℝ) / 250) := by
  simp only [relCons_AhMh, leafA_M0, leafP_M0, leafQ_M0, leafM_M0]
  rw [show (1 : ℝ) / 1 * (2 : ℝ) ^ (-(499 : ℝ) / 500) *
        ((2 : ℝ) ^ (-(499 : ℝ) / 500) * (1 / 1)) * 1 =
      (2 : ℝ) ^ (-(499 : ℝ) / 500) * (2 : ℝ) ^ (-(499 : ℝ) / 500) by ring]
  rw [← Real.rpow_add (by norm_num : (0 : ℝ) < 2)]
  norm_num

lemma relCons_M0_MhAh_val :
    make_relative_consumption_expenditure M0 .Mh .Ah 1 0 0 =
      (2 : ℝ) ^ ((499 : ℝ) / 500) := by
  simp only [relCons_MhAh, leafA_M0, leafP_M0, leafQ_M0, leafM_M0]
  rw [show ((499 : ℝ) / 500) = -(-(499 : ℝ) / 500) by norm_num,
    Real.rpow_neg (by norm_num : (0 : ℝ) ≤ 2)]
  norm_num

lemma two_rpow_M0_small : (2 : ℝ) ^ (-(499 : ℝ) / 500) ≤ 3 / 4 := by
  have h1 : (2 : ℝ) ^ (-(499 : ℝ) / 500) ≤ (2 : ℝ) ^ (-(1 : ℝ) / 2) := by
    apply (Real.rpow_le_rpow_left_iff (by norm_num : (1 : ℝ) < 2)).mpr
    norm_num
  have ht : (0 : ℝ) < (2 : ℝ) ^ (-(1 : ℝ) / 2) :=
    Real.rpow_pos_of_pos (by norm_num) _
  have htt : (2 : ℝ) ^ (-(1 : ℝ) / 2) * (2 : ℝ) ^ (-(1 : ℝ) / 2) = 1 / 2 := by
    rw [← Real.rpow_add (by norm_num : (0 : ℝ) < 2)]
    rw [show (-(1 : ℝ) / 2 + -(1 : ℝ) / 2) = (-1 : ℝ) by norm_num]
    rw [Real.rpow_neg_one]
    norm_num
  nlinarith [sq_nonneg ((2 : ℝ) ^ (-(1 : ℝ) / 2) - 3 / 4)]

/-- C2: the three-hop resolution of `make_relative_consumption_expenditure` is
claimed to return the chain composition `E(over,k1) * E(k1,k2) * E(k2,k3) *
E(k3,under)`.  On the fixed key schema the pair `(Ah, Mh)` resolves through the
chain `k1 = Ar, k2 = Sr, k3 = Mr`; at the model `M0` and the point `(1, 0, 0)`
the source returns `2 ^ (-499/250)` (its third factor is `E(k1,k3)`, not
`E(k2,k3)`) while the claimed chain composition equals `2 ^ (-499/500)`, so the
two differ. -/
theorem c2_theorem :
    make_relative_consumption_expenditure M0 .Ah .Mh 1 0 0 = (2 : ℝ) ^ (-(499 : ℝ) / 250) ∧
      make_relative_consumption_expenditure M0 .Ah .Ar 1 0 0 *
          make_relative_consumption_expenditure M0 .Ar .Sr 1 0 0 *
          make_relative_consumption_expenditure M0 .Sr .Mr 1 0 0 *
          make_relative_consumption_expenditure M0 .Mr .Mh 1 0 0 =
        (2 : ℝ) ^ (-(499 : ℝ) / 500) ∧
      make_relative_consumption_expenditure M0 .Ah .Mh 1 0 0 <
        make_relative_consumption_expenditure M0 .Ah .Ar 1 0 0 *
          make_relative_consumption_expenditure M0 .Ar .Sr 1 0 0 *
          make_relative_consumption_expenditure M0 .Sr .Mr 1 0 0 *
          make_relative_consumption_expenditure M0 .Mr .Mh 1 0 0 := by
  have hchain :
      make_relative_consumption_expenditure M0 .Ah .Ar 1 0 0 *
          make_relative_consumption_expenditure M0 .Ar .Sr 1 0 0 *
          make_relative_consumption_expenditure M0 .Sr .Mr 1 0 0 *
          make_relative_consumption_expenditure M0 .Mr .Mh 1 0 0 =
        (2 : ℝ) ^ (-(499 : ℝ) / 500) := by
    simp only [relCons_AhAr, relCons_ArSr, relCons_SrMr, relCons_MrMh,
      leafA_M0, leafP_M0, leafQ_M0, leafM_M0]
    norm_num
  refine ⟨relCons_M0_AhMh_val, hchain, ?_⟩
  rw [relCons_M0_AhMh_val, hchain]
  apply (Real.rpow_lt_rpow_left_iff (by norm_num : (1 : ℝ) < 2)).mpr
  norm_num

/-- C1: the reciprocity property `E(A,B) * E(B,A) = 1` of
`make_relative_expenditure` fails for the production pair `(Ah, Mh)`: at the
model `M0` and the point `(1, 0, 0)` the product equals `2 ^ (-499/500)`,
which is more than `1e-9` away from 1 (the three-hop resolution used for this
pair contains a spurious extra factor). -/
theorem c1_theorem :
    make_relative_expenditure M0 (.prod .Ah) (.prod .Mh) 1 0 0 *
        make_relative_expenditure M0 (.prod .Mh) (.prod .Ah) 1 0 0 =
      (2 : ℝ) ^ (-(499 : ℝ) / 500) ∧
      1e-9 <
        |make_relative_expenditure M0 (.prod .Ah) (.prod .Mh) 1 0 0 *
            make_relative_expenditure M0 (.prod .Mh) (.prod .Ah) 1 0 0 - 1| := by
  have hprod :
      make_relative_expenditure M0 (.prod .Ah) (.prod .Mh) 1 0 0 *
          make_relative_expenditure M0 (.prod .Mh) (.prod .Ah) 1 0 0 =
        (2 : ℝ) ^ (-(499 : ℝ) / 500) := by
    rw [relExp_AhMh, relExp_MhAh, relCons_M0_AhMh_val, relCons_M0_MhAh_val]
    rw [← Real.rpow_add (by norm_num : (0 : ℝ) < 2)]
    norm_num
  refine ⟨hprod, ?_⟩
  rw [hprod]
  have h34 := two_rpow_M0_small
  have hpos : (0 : ℝ) < (2 : ℝ) ^ (-(499 : ℝ) / 500) :=
    Real.rpow_pos_of_pos (by norm_num) _
  rw [abs_of_nonpos (by linarith)]
  norm_num
  linarith

/-- C8: for every flow index and every input with a nonnegative wage ratio and
schooling years within the working life of a model with a positive discount
rate and an interior female labor share, the female wage bill lies in `[0, 1]`
and the male wage bill is exactly its complement, so the two shares sum to 1
exactly. -/
theorem c8_theorem (M : ModelData) (idx : FIdx) (tw sf sm : ℝ)
    (hxi0 : 0 < M.xi idx) (hxi1 : M.xi idx < 1) (htw : 0 ≤ tw)
    (hrho : 0 < M.rho) (hsf : sf ≤ M.T) (hsm : sm ≤ M.T) :
    0 ≤ make_female_wage_bill M idx tw sf sm ∧
      make_female_wage_bill M idx tw sf sm ≤ 1 ∧
      make_female_wage_bill M idx tw sf sm + make_male_wage_bill M idx tw sf sm = 1 := by
  have hbase : 0 ≤ M.xi idx / (1 - M.xi idx) :=
    div_nonneg (le_of_lt hxi0) (by linarith)
  have hA : 0 ≤ (M.xi idx / (1 - M.xi idx)) ^
      (-(if idx = FIdx.leisure then M.eta_l else M.eta)) :=
    Real.rpow_nonneg hbase _
  have htwp : 0 ≤ tw ^ ((if idx = FIdx.leisure then M.eta_l else M.eta) - 1) :=
    Real.rpow_nonneg htw _
  have hadjfun :
      0 ≤ (if idx.isModern then (fun (_ _ : ℝ) => (1 : ℝ))
          else fun sf sm =>
            discounter M sf * humanCapital M sf / discounter M sm / humanCapital M sm)
          sf sm := by
    by_cases hmod : idx.isModern
    · simp [hmod]
    · simp only [hmod, if_false]
      apply div_nonneg
      apply div_nonneg
      exact mul_nonneg (discounter_nonneg M hrho sf hsf) (le_of_lt (humanCapital_pos M sf))
      exact discounter_nonneg M hrho sm hsm
      exact le_of_lt (humanCapital_pos M sm)
  have hadj :
      0 ≤ ((if idx.isModern then (fun (_ _ : ℝ) => (1 : ℝ))
          else fun sf sm =>
            discounter M sf * humanCapital M sf / discounter M sm / humanCapital M sm)
          sf sm) ^ ((if idx = FIdx.leisure then M.eta_l else M.eta) - 1) :=
    Real.rpow_nonneg hadjfun _
  have hden : 1 ≤ 1 + (M.xi idx / (1 - M.xi idx)) ^
        (-(if idx = FIdx.leisure then M.eta_l else M.eta)) *
        tw ^ ((if idx = FIdx.leisure then M.eta_l else M.eta) - 1) *
        ((if idx.isModern then (fun (_ _ : ℝ) => (1 : ℝ))
            else fun sf sm =>
              discounter M sf * humanCapital M sf / discounter M sm / humanCapital M sm)
            sf sm) ^ ((if idx = FIdx.leisure then M.eta_l else M.eta) - 1) := by
    nlinarith [mul_nonneg (mul_nonneg hA htwp) hadj]
  refine ⟨?_, ?_, ?_⟩
  · unfold make_female_wage_bill
    positivity
  · unfold make_female_wage_bill
    apply div_le_one_of_le₀
    · linarith
    · linarith
  · unfold make_male_wage_bill
    ring

/-- Witness for C8 at the model `M0`, the traditional-agriculture index, and
the input `(1, 0, 0)`. -/
theorem c8_witness :
    0 ≤ make_female_wage_bill M0 (.prod .Ah) 1 0 0 ∧
      make_female_wage_bill M0 (.prod .Ah) 1 0 0 ≤ 1 ∧
      make_female_wage_bill M0 (.prod .Ah) 1 0 0 +
          make_male_wage_bill M0 (.prod .Ah) 1 0 0 = 1 :=
  c8_theorem M0 (.prod .Ah) 1 0 0 (by norm_num [M0]) (by norm_num [M0]) (by norm_num)
    (by norm_num [M0]) (by norm_num [M0]) (by norm_num [M0])

/-- C10: `make_male_labor_ratio` returns the relative expenditure times the
male wage-bill ratio times the discounting adjustment factor raised to the
power (1 if over is modern) - (1 if under is modern); the adjustment factor
`schooling_adjustment` is a function of the female schooling argument `sf`
only, and `make_female_labor_ratio` factors through the identical adjustment,
so the male ratio never evaluates it at `sm`. -/
theorem c10_theorem (M : ModelData) (over under : PIdx) (tw sf sm : ℝ) :
    make_male_labor_ratio M over under tw sf sm =
      make_relative_expenditure_p M over under tw sf sm *
          make_male_wage_bill M (.prod over) tw sf sm /
          make_male_wage_bill M (.prod under) tw sf sm *
        schooling_adjustment M sf ^ modern_exponent over under ∧
      make_female_labor_ratio M over under tw sf sm =
        make_relative_expenditure_p M over under tw sf sm *
            make_female_wage_bill M (.prod over) tw sf sm /
            make_female_wage_bill M (.prod under) tw sf sm *
          schooling_adjustment M sf ^ modern_exponent over under :=
  ⟨rfl, rfl⟩

/-- C9: the three sectoral expenditure shares of
`make_sectoral_expenditure_share_of_consumption` sum to one at every point
where the involved relative-expenditure resolutions are defined (expressed as
positivity of the five resolved leaf expenditures, which holds wherever the
source evaluates them without error, since they are products of powers of
positive quantities). -/
theorem c9_theorem (M : ModelData) (tw sf sm : ℝ)
    (ha : 0 < make_relative_consumption_expenditure M .Ar .Ah tw sf sm)
    (hm : 0 < make_relative_consumption_expenditure M .Mr .Mh tw sf sm)
    (hs : 0 < make_relative_consumption_expenditure M .Sr .Sh tw sf sm)
    (hp : 0 < make_relative_consumption_expenditure M .Ar .Sr tw sf sm)
    (hq : 0 < make_relative_consumption_expenditure M .Mr .Sr tw sf sm) :
    make_sectoral_expenditure_share_of_consumption M .A tw sf sm +
      make_sectoral_expenditure_share_of_consumption M .M tw sf sm +
      make_sectoral_expenditure_share_of_consumption M .S tw sf sm = 1 := by
  rw [relCons_ArAh] at ha
  rw [relCons_MrMh] at hm
  rw [relCons_SrSh] at hs
  rw [relCons_ArSr] at hp
  rw [relCons_MrSr] at hq
  unfold make_sectoral_expenditure_share_of_consumption
  simp only [sectors_list, modern_of, traditional_of, List.map_cons, List.map_nil,
    List.zipWith_cons_cons, List.zipWith_nil_left, List.zipWith_nil_right,
    List.sum_cons, List.sum_nil,
    relCons_ArAh, relCons_ArMh, relCons_ArSh, relCons_MrAh, relCons_MrMh, relCons_MrSh,
    relCons_SrAh, relCons_SrMh, relCons_SrSh]
  set a := leafA M tw sf sm
  set b := leafM M tw sf sm
  set c := leafS M tw sf sm
  set p := leafP M tw sf sm
  set q := leafQ M tw sf sm
  have h1a : (0 : ℝ) < 1 + a := by linarith
  have h1b : (0 : ℝ) < 1 + b := by linarith
  have h1c : (0 : ℝ) < 1 + c := by linarith
  have hsumA : 0 < a / (1 + a) * (1 + a) / a + a / (1 + a) * (1 + b) / (p * (1 / q) * b) +
      a / (1 + a) * (1 + c) / (p * c) := by
    have t1 : 0 < a / (1 + a) * (1 + a) / a := by positivity
    have t2 : 0 < a / (1 + a) * (1 + b) / (p * (1 / q) * b) := by positivity
    have t3 : 0 < a / (1 + a) * (1 + c) / (p * c) := by positivity
    linarith
  have hsumM : 0 < b / (1 + b) * (1 + a) / (q * (1 / p) * a) + b / (1 + b) * (1 + b) / b +
      b / (1 + b) * (1 + c) / (q * c) := by
    have t1 : 0 < b / (1 + b) * (1 + a) / (q * (1 / p) * a) := by positivity
    have t2 : 0 < b / (1 + b) * (1 + b) / b := by positivity
    have t3 : 0 < b / (1 + b) * (1 + c) / (q * c) := by positivity
    linarith
  have hsumS : 0 < c / (1 + c) * (1 + a) / (1 / p * a) + c / (1 + c) * (1 + b) / (1 / q * b) +
      c / (1 + c) * (1 + c) / c := by
    have t1 : 0 < c / (1 + c) * (1 + a) / (1 / p * a) := by positivity
    have t2 : 0 < c / (1 + c) * (1 + b) / (1 / q * b) := by positivity
    have t3 : 0 < c / (1 + c) * (1 + c) / c := by positivity
    linarith
  field_simp
  ring

/-! The calibration objective: error propagation (C7). -/

/-- C7 (amended): the `errors` objective of `make_calibration` contains no
exception handling around the Newton solve — a solver failure propagates out of
the objective unchanged instead of being converted into a penalty value, and on
a successful solve the objective returns the per-target absolute errors. -/
theorem c7_theorem :
    (∀ (e : String) (targets : List (ℝ × (Vec3 → ℝ))),
        calibration_errors_core (.error e) targets = .error e) ∧
      ∀ (y : Vec3) (targets : List (ℝ × (Vec3 → ℝ))),
        calibration_errors_core (.ok y) targets =
          .ok (targets.map fun p => |p.1 - p.2 y|) :=
  ⟨fun _ _ => rfl, fun _ _ => rfl⟩

/-- Counterexample for C7: a failing Newton solve leaves the calibration
objective as the propagated error — there is no evaluable penalty value for
the outer Nelder-Mead trial. -/
theorem c7_counterexample :
    calibration_errors_core
        (.error ("Household optimization solver failed to step"))
        [((1 : ℝ), fun v => v.x)] =
      .error ("Household optimization solver failed to step") := rfl

/-! The finite-difference Jacobian: step-shrink behavior (C6). -/

lemma jacobian_loop_succ (F : Vec3 → Option Vec3) (minStep : ℝ) (fuel : ℕ)
    (step : ℝ) (y : Vec3) :
    jacobian_loop F minStep (fuel + 1) step y =
      if minStep < step then
        match centralDiff F step y with
        | some J => .ok J
        | none => jacobian_loop F minStep fuel (step / 10) y
      else .error ("Jacobian calculation failed") := rfl

lemma make_jacobian_core_eq (F : Vec3 → Option Vec3) (y : Vec3) :
    make_jacobian_core F 1e-10 1e-12 y =
      match centralDiff F 1e-10 y with
      | some J => .ok J
      | none =>
        match centralDiff F 1e-11 y with
        | some J => .ok J
        | none => .error ("Jacobian calculation failed") := by
  unfold make_jacobian_core
  rw [show jacFuel = 63 + 1 from rfl, jacobian_loop_succ,
    if_pos (by norm_num : (1e-12 : ℝ) < 1e-10)]
  cases h10 : centralDiff F 1e-10 y with
  | some J => rfl
  | none =>
    rw [show (1e-10 : ℝ) / 10 = 1e-11 by norm_num,
      show (63 : ℕ) = 62 + 1 from rfl, jacobian_loop_succ,
      if_pos (by norm_num : (1e-12 : ℝ) < 1e-11)]
    cases h11 : centralDiff F 1e-11 y with
    | some J => rfl
    | none =>
      rw [show (1e-11 : ℝ) / 10 = 1e-12 by norm_num,
        show (62 : ℕ) = 61 + 1 from rfl, jacobian_loop_succ,
        if_neg (by norm_num : ¬((1e-12 : ℝ) < 1e-12))]

/-- C6 (amended): with the source's parameters (initial step 1e-10, minimum
step 1e-12), `make_jacobian` tries exactly the steps 1e-10 and 1e-11 — the
steps strictly above the floor — returning the first all-finite central
difference and raising the hard error when both produce NaN or a division
error; the floor step 1e-12 itself is never attempted. -/
theorem c6_theorem (F : Vec3 → Option Vec3) (y : Vec3) :
    make_jacobian_core F 1e-10 1e-12 y =
      match centralDiff F 1e-10 y with
      | some J => .ok J
      | none =>
        match centralDiff F 1e-11 y with
        | some J => .ok J
        | none => .error ("Jacobian calculation failed") :=
  make_jacobian_core_eq F y

lemma jacF_none_10 : centralDiff jacF 1e-10 ⟨0, 0, 0⟩ = none := by
  unfold centralDiff
  rw [show jacF ⟨(0 : ℝ) - 1e-10 / 2, (0 : ℝ), (0 : ℝ)⟩ = none from by
    unfold jacF; rw [if_neg]; norm_num]
  rfl

lemma jacF_none_11 : centralDiff jacF 1e-11 ⟨0, 0, 0⟩ = none := by
  unfold centralDiff
  rw [show jacF ⟨(0 : ℝ) - 1e-11 / 2, (0 : ℝ), (0 : ℝ)⟩ = none from by
    unfold jacF; rw [if_neg]; norm_num]
  rfl

lemma jacF_some_12 : (centralDiff jacF 1e-12 ⟨0, 0, 0⟩).isSome = true := by
  unfold centralDiff
  have hval : ∀ v : Vec3, -1e-12 ≤ v.x → v.x ≤ 1e-12 → -1e-12 ≤ v.y → v.y ≤ 1e-12 →
      -1e-12 ≤ v.z → v.z ≤ 1e-12 → jacF v = some v := by
    intro v h1 h2 h3 h4 h5 h6
    unfold jacF
    rw [if_pos]
    exact ⟨h1, h2, h3, h4, h5, h6⟩
  rw [hval ⟨(0 : ℝ) - 1e-12 / 2, 0, 0⟩ (by norm_num) (by norm_num) (by norm_num)
      (by norm_num) (by norm_num) (by norm_num),
    hval ⟨(0 : ℝ) + 1e-12 / 2, 0, 0⟩ (by norm_num) (by norm_num) (by norm_num)
      (by norm_num) (by norm_num) (by norm_num),
    hval ⟨(0 : ℝ), 0 - 1e-12 / 2, 0⟩ (by norm_num) (by norm_num) (by norm_num)
      (by norm_num) (by norm_num) (by norm_num),
    hval ⟨(0 : ℝ), 0 + 1e-12 / 2, 0⟩ (by norm_num) (by norm_num) (by norm_num)
      (by norm_num) (by norm_num) (by norm_num),
    hval ⟨(0 : ℝ), 0, 0 - 1e-12 / 2⟩ (by norm_num) (by norm_num) (by norm_num)
      (by norm_num) (by norm_num) (by norm_num),
    hval ⟨(0 : ℝ), 0, 0 + 1e-12 / 2⟩ (by norm_num) (by norm_num) (by norm_num)
      (by norm_num) (by norm_num) (by norm_num)]
  rfl

/-- Counterexample for C6: an foc whose evaluations are clean only within
1e-12 of the base point.  The step 1e-12 would give an all-finite Jacobian,
yet `make_jacobian` raises the hard error because it only tries the steps
1e-10 and 1e-11. -/
theorem c6_counterexample :
    make_jacobian_core jacF 1e-10 1e-12 ⟨0, 0, 0⟩ =
        .error ("Jacobian calculation failed") ∧
      (centralDiff jacF 1e-12 ⟨0, 0, 0⟩).isSome = true := by
  constructor
  · rw [make_jacobian_core_eq, jacF_none_10, jacF_none_11]
  · exact jacF_some_12

/-! The backtracking loop of the Newton solver (C3, C5). -/

open scoped Classical in
lemma backtrack_loop_succ (F : Vec3 → Vec3) (J : Vec3 → Except String Mat3)
    (Flen : ℝ) (y h : Vec3) (fuel : ℕ) (alam : ℝ) :
    backtrack_loop F J Flen y h (fuel + 1) alam =
      if 1e-6 < alam then
        if (∃ Jvn, J (vadd y (vsmul (alam / 10) h)) = .ok Jvn ∧ (npInv Jvn).isSome) ∧
            norm3 (F (vadd y (vsmul (alam / 10) h))) < Flen then
          some (alam / 10, vadd y (vsmul (alam / 10) h))
        else backtrack_loop F J Flen y h fuel (alam / 10)
      else none := rfl

/-- Full characterization of an accepted backtracking step: the accepted
damping factor arises by repeated division by 10, it sits above the floor, the
step is `y + alam * h`, and acceptance requires an error-free invertible
Jacobian and a strict residual decrease. -/
lemma backtrack_loop_spec (F : Vec3 → Vec3) (J : Vec3 → Except String Mat3)
    (Flen : ℝ) (y h : Vec3) :
    ∀ (fuel : ℕ) (alam0 a : ℝ) (yn : Vec3),
      backtrack_loop F J Flen y h fuel alam0 = some (a, yn) →
        (∃ k : ℕ, a = alam0 / 10 ^ (k + 1) ∧ 1e-6 < alam0 / 10 ^ k) ∧
          yn = vadd y (vsmul a h) ∧
          (∃ Jvn, J yn = .ok Jvn ∧ (npInv Jvn).isSome) ∧ norm3 (F yn) < Flen := by
  intro fuel
  induction fuel with
  | zero => intro alam0 a yn hrun; exact absurd hrun (by unfold backtrack_loop; simp)
  | succ fuel ih =>
    intro alam0 a yn hrun
    rw [backtrack_loop_succ] at hrun
    by_cases hfloor : (1e-6 : ℝ) < alam0
    · rw [if_pos hfloor] at hrun
      by_cases hacc :
          (∃ Jvn, J (vadd y (vsmul (alam0 / 10) h)) = .ok Jvn ∧ (npInv Jvn).isSome) ∧
            norm3 (F (vadd y (vsmul (alam0 / 10) h))) < Flen
      · rw [if_pos hacc] at hrun
        have ha : a = alam0 / 10 := by
          have := congrArg (fun r => r.map Prod.fst) hrun
          simpa using this.symm
        have hyn : yn = vadd y (vsmul (alam0 / 10) h) := by
          have := congrArg (fun r => r.map Prod.snd) hrun
          simpa using this.symm
        subst ha
        refine ⟨⟨0, by norm_num, by simpa using hfloor⟩, hyn, ?_, ?_⟩
        · rw [hyn]; exact hacc.1
        · rw [hyn]; exact hacc.2
      · rw [if_neg hacc] at hrun
        obtain ⟨⟨k, hk1, hk2⟩, hyn, hinv, hlt⟩ := ih (alam0 / 10) a yn hrun
        refine ⟨⟨k + 1, ?_, ?_⟩, hyn, hinv, hlt⟩
        · rw [hk1, div_div, ← pow_succ']
        · rw [div_div, ← pow_succ'] at hk2; exact hk2
    · rw [if_neg hfloor] at hrun
      exact absurd hrun (by simp)

/-- C3 (amended): the backtracking loop of `solve_foc` accepts a candidate
step exactly upon an error-free, NaN-free, invertible Jacobian and a strictly
smaller residual norm; no nonnegativity check on the components of the
candidate is performed (the counterexample exhibits an accepted step with a
negative component). -/
theorem c3_theorem (F : Vec3 → Vec3) (J : Vec3 → Except String Mat3) (Flen : ℝ)
    (y h : Vec3) (fuel : ℕ) (alam0 a : ℝ) (yn : Vec3)
    (hrun : backtrack_loop F J Flen y h fuel alam0 = some (a, yn)) :
    (∃ Jvn, J yn = .ok Jvn ∧ (npInv Jvn).isSome) ∧ norm3 (F yn) < Flen :=
  (backtrack_loop_spec F J Flen y h fuel alam0 a yn hrun).2.2

lemma norm3_single (t : ℝ) : norm3 ⟨t, 0, 0⟩ = |t| := by
  unfold norm3
  norm_num
  exact Real.sqrt_sq_eq_abs t

lemma npInv_idMat3_isSome : (npInv idMat3).isSome = true := by
  unfold npInv
  rw [if_neg (by norm_num [det3, idMat3])]
  rfl

lemma btF2_run :
    backtrack_loop btF2 (fun _ => .ok idMat3) 2 ⟨1, 0, 0⟩ ⟨-2, 0, 0⟩ btFuel 10 =
      some (1, ⟨-1, 0, 0⟩) := by
  rw [show btFuel = 63 + 1 from rfl, backtrack_loop_succ,
    if_pos (by norm_num : (1e-6 : ℝ) < 10)]
  rw [show vadd ⟨1, 0, 0⟩ (vsmul ((10 : ℝ) / 10) ⟨-2, 0, 0⟩) = (⟨-1, 0, 0⟩ : Vec3) from by
    unfold vadd vsmul; norm_num]
  rw [if_pos]
  · rw [show (10 : ℝ) / 10 = 1 by norm_num]
  · constructor
    · exact ⟨idMat3, rfl, npInv_idMat3_isSome⟩
    · rw [show btF2 ⟨-1, 0, 0⟩ = ⟨0, 0, 0⟩ from by unfold btF2; norm_num]
      rw [norm3_single]
      norm_num

/-- Counterexample for C3: with the synthetic foc `btF2`, current iterate
`(1,0,0)` and Newton direction `(-2,0,0)`, the very first candidate of the
backtracking loop, `yn = (-1,0,0)`, has a negative first component and is
accepted — no smaller damping factor is tried. -/
theorem c3_counterexample :
    backtrack_loop btF2 (fun _ => .ok idMat3) 2 ⟨1, 0, 0⟩ ⟨-2, 0, 0⟩ btFuel 10 =
        some (1, ⟨-1, 0, 0⟩) ∧
      (Vec3.mk (-1) 0 0).x < 0 :=
  ⟨btF2_run, by norm_num⟩

/-- Witness for C3 at the accepted step of the `btF2` run. -/
theorem c3_witness :
    (∃ Jvn, (Except.ok idMat3 : Except String Mat3) = .ok Jvn ∧ (npInv Jvn).isSome) ∧
      norm3 (btF2 ⟨-1, 0, 0⟩) < 2 :=
  c3_theorem btF2 (fun _ => .ok idMat3) 2 ⟨1, 0, 0⟩ ⟨-2, 0, 0⟩ btFuel 10 1 ⟨-1, 0, 0⟩
    btF2_run

lemma btF3_run :
    backtrack_loop btF3 (fun _ => .ok idMat3) 1 ⟨0, 0, 0⟩ ⟨1, 0, 0⟩ btFuel 10 =
      some (1 / 10, ⟨1 / 10, 0, 0⟩) := by
  rw [show btFuel = 63 + 1 from rfl, backtrack_loop_succ,
    if_pos (by norm_num : (1e-6 : ℝ) < 10)]
  rw [show vadd ⟨0, 0, 0⟩ (vsmul ((10 : ℝ) / 10) ⟨1, 0, 0⟩) = (⟨1, 0, 0⟩ : Vec3) from by
    unfold vadd vsmul; norm_num]
  rw [if_neg]
  · rw [show (10 : ℝ) / 10 = 1 by norm_num, show (63 : ℕ) = 62 + 1 from rfl,
      backtrack_loop_succ, if_pos (by norm_num : (1e-6 : ℝ) < 1)]
    rw [show vadd ⟨0, 0, 0⟩ (vsmul ((1 : ℝ) / 10) ⟨1, 0, 0⟩) = (⟨1 / 10, 0, 0⟩ : Vec3) from by
      unfold vadd vsmul; norm_num]
    rw [if_pos]
    constructor
    · exact ⟨idMat3, rfl, npInv_idMat3_isSome⟩
    · rw [show btF3 ⟨1 / 10, 0, 0⟩ = ⟨1 / 2, 0, 0⟩ from by
        unfold btF3; rw [if_neg (by norm_num), if_pos rfl]]
      rw [norm3_single, abs_of_nonneg (by norm_num : (0 : ℝ) ≤ 1 / 2)]
      norm_num
  · intro hcon
    have h2 : btF3 ⟨1, 0, 0⟩ = ⟨2, 0, 0⟩ := by unfold btF3; rw [if_pos rfl]
    rw [h2, norm3_single] at hcon
    have := hcon.2
    norm_num at this

/-- C5 (amended): every factor the backtracking loop of `solve_foc` accepts is
of the form `alam0 / 10 ^ (k+1)` — the loop variable starts at `10 * lambda`
and is divided by 10 before every attempt (so the first candidate uses
`lambda`), the pre-division value sits above the 1e-6 floor, and a candidate
is accepted only when the Jacobian evaluates without error, is invertible, and
the residual norm strictly decreases. -/
theorem c5_theorem (F : Vec3 → Vec3) (J : Vec3 → Except String Mat3) (Flen : ℝ)
    (y h : Vec3) (fuel : ℕ) (alam0 a : ℝ) (yn : Vec3)
    (hrun : backtrack_loop F J Flen y h fuel alam0 = some (a, yn)) :
    (∃ k : ℕ, a = alam0 / 10 ^ (k + 1) ∧ 1e-6 < alam0 / 10 ^ k) ∧
      yn = vadd y (vsmul a h) ∧
      (∃ Jvn, J yn = .ok Jvn ∧ (npInv Jvn).isSome) ∧ norm3 (F yn) < Flen :=
  backtrack_loop_spec F J Flen y h fuel alam0 a yn hrun

/-- Counterexample for C5: on the `btF3` run the first candidate (factor 1)
is rejected and the second accepted with factor `1/10` — not `10` (the claimed
start `10 * lambda`) and not `5` (one halving of it). -/
theorem c5_counterexample :
    backtrack_loop btF3 (fun _ => .ok idMat3) 1 ⟨0, 0, 0⟩ ⟨1, 0, 0⟩ btFuel 10 =
        some (1 / 10, ⟨1 / 10, 0, 0⟩) ∧
      (1 : ℝ) / 10 ≠ 10 ∧ (1 : ℝ) / 10 ≠ 5 :=
  ⟨btF3_run, by norm_num, by norm_num⟩

/-- Witness for C5 at the `btF3` run: the accepted factor `1/10` is of the
divide-by-ten form with `k = 1`. -/
theorem c5_witness :
    ∃ k : ℕ, (1 : ℝ) / 10 = 10 / 10 ^ (k + 1) ∧ (1e-6 : ℝ) < 10 / 10 ^ k :=
  (c5_theorem btF3 (fun _ => .ok idMat3) 1 ⟨0, 0, 0⟩ ⟨1, 0, 0⟩ btFuel 10 (1 / 10)
    ⟨1 / 10, 0, 0⟩ btF3_run).1

/-! The outer Newton loop of `solve_foc` (C4). -/

open scoped Classical in
lemma solve_loop_succ (F : Vec3 → Vec3) (J : Vec3 → Except String Mat3)
    (lam Ftol htol : ℝ) (fuel : ℕ) (y yn : Vec3) (conv : Bool) (n : ℕ) :
    solve_loop F J lam Ftol htol (fuel + 1) y yn conv n =
      if conv then .ok ⟨y, n, conv⟩
      else
        match J yn with
        | .error e => .error e
        | .ok Jv =>
          match npInv Jv with
          | none => .error ("Singular matrix")
          | some iJv =>
            match backtrack_loop F J (norm3 (F yn)) yn
                (vsmul (-1) (mulVec3 iJv (F yn))) btFuel (lam * 10) with
            | none => .error ("Household optimization solver failed to step")
            | some (_, yn1) =>
              solve_loop F J lam Ftol htol fuel yn yn1
                (if norm3 (F yn) ≤ Ftol ∨ norm3 (vsub yn1 yn) ≤ htol then true else false)
                (n + 1) := rfl

lemma solve_loop_bound (F : Vec3 → Vec3) (J : Vec3 → Except String Mat3)
    (lam Ftol htol : ℝ) :
    ∀ (fuel : ℕ) (y yn : Vec3) (conv : Bool) (n : ℕ) (r : SolveResult),
      solve_loop F J lam Ftol htol fuel y yn conv n = .ok r →
        r.n ≤ n + fuel ∧ (r.converged = false → r.n = n + fuel) := by
  intro fuel
  induction fuel with
  | zero =>
    intro y yn conv n r hr
    unfold solve_loop at hr
    have h := Except.ok.inj hr
    subst h
    exact ⟨Nat.le_add_right n 0, fun _ => (Nat.add_zero n).symm⟩
  | succ fuel ih =>
    intro y yn conv n r hr
    rw [solve_loop_succ] at hr
    by_cases hconv : conv = true
    · rw [if_pos hconv] at hr
      have h := Except.ok.inj hr
      subst h
      refine ⟨Nat.le_add_right n (fuel + 1), fun hf => ?_⟩
      have hcf : conv = false := hf
      rw [hconv] at hcf
      exact absurd hcf (by simp)
    · rw [if_neg hconv] at hr
      cases hJ : J yn with
      | error e => rw [hJ] at hr; exact absurd hr (by simp)
      | ok Jv =>
        rw [hJ] at hr
        simp only [] at hr
        cases hInv : npInv Jv with
        | none => rw [hInv] at hr; exact absurd hr (by simp)
        | some iJv =>
          rw [hInv] at hr
          simp only [] at hr
          cases hbt : backtrack_loop F J (norm3 (F yn)) yn
              (vsmul (-1) (mulVec3 iJv (F yn))) btFuel (lam * 10) with
          | none => rw [hbt] at hr; exact absurd hr (by simp)
          | some pr =>
            rw [hbt] at hr
            simp only [] at hr
            obtain ⟨h1, h2⟩ := ih yn pr.2 _ (n + 1) r hr
            constructor
            · omega
            · intro hf; have := h2 hf; omega

/-- C4 (amended): `solve_foc` performs at most `maxn + 1 = 36` outer Newton
iterations (the loop guard `n <= maxn` admits the body for `n = 0, ..., 35`);
it terminates early exactly when the convergence flag is raised by the
residual-norm or step-norm tolerance, and when every iteration steps but the
budget is exhausted without convergence it returns the last iterate with the
non-convergence warning flag instead of raising an error. -/
theorem c4_theorem (F : Vec3 → Vec3) (J : Vec3 → Except String Mat3)
    (lam Ftol htol : ℝ) (maxn : ℕ) (y : Vec3) (r : SolveResult)
    (hr : solve_foc_core F J lam Ftol htol maxn y = .ok r) :
    r.n ≤ maxn + 1 ∧ (r.converged = false → r.n = maxn + 1) := by
  have h := solve_loop_bound F J lam Ftol htol (maxn + 1) y y false 0 r hr
  constructor
  · have := h.1; omega
  · intro hf; have := h.2 hf; omega

lemma centralDiff_total (G : Vec3 → Vec3) (step : ℝ) (y : Vec3) :
    centralDiff (fun v => some (G v)) step y =
      some
        ⟨((G ⟨y.x + step / 2, y.y, y.z⟩).x - (G ⟨y.x - step / 2, y.y, y.z⟩).x) / step,
          ((G ⟨y.x, y.y + step / 2, y.z⟩).x - (G ⟨y.x, y.y - step / 2, y.z⟩).x) / step,
          ((G ⟨y.x, y.y, y.z + step / 2⟩).x - (G ⟨y.x, y.y, y.z - step / 2⟩).x) / step,
          ((G ⟨y.x + step / 2, y.y, y.z⟩).y - (G ⟨y.x - step / 2, y.y, y.z⟩).y) / step,
          ((G ⟨y.x, y.y + step / 2, y.z⟩).y - (G ⟨y.x, y.y - step / 2, y.z⟩).y) / step,
          ((G ⟨y.x, y.y, y.z + step / 2⟩).y - (G ⟨y.x, y.y, y.z - step / 2⟩).y) / step,
          ((G ⟨y.x + step / 2, y.y, y.z⟩).z - (G ⟨y.x - step / 2, y.y, y.z⟩).z) / step,
          ((G ⟨y.x, y.y + step / 2, y.z⟩).z - (G ⟨y.x, y.y - step / 2, y.z⟩).z) / step,
          ((G ⟨y.x, y.y, y.z + step / 2⟩).z - (G ⟨y.x, y.y, y.z - step / 2⟩).z) / step⟩ :=
  rfl

lemma solJ_eval (v : Vec3) : solJ v = .ok ⟨2 * v.x, 0, 0, 0, 1, 0, 0, 0, 1⟩ := by
  unfold solJ
  rw [make_jacobian_core_eq, centralDiff_total]
  refine congrArg Except.ok ?_
  simp only [solF, Mat3.mk.injEq]
  refine ⟨?_, ?_, ?_, ?_, ?_, ?_, ?_, ?_, ?_⟩ <;>
    (rw [div_eq_iff (by norm_num : (1e-10 : ℝ) ≠ 0)]; ring)

lemma npInv_diag (c : ℝ) (hc : c ≠ 0) :
    npInv ⟨2 * c, 0, 0, 0, 1, 0, 0, 0, 1⟩ =
      some ⟨1 / (2 * c), 0, 0, 0, 1, 0, 0, 0, 1⟩ := by
  have hdet : det3 ⟨2 * c, 0, 0, 0, 1, 0, 0, 0, 1⟩ = 2 * c := by
    unfold det3; ring
  unfold npInv
  rw [if_neg (by rw [hdet]; exact mul_ne_zero two_ne_zero hc)]
  refine congrArg some ?_
  rw [hdet]
  simp only [Mat3.mk.injEq]
  refine ⟨?_, ?_, ?_, ?_, ?_, ?_, ?_, ?_, ?_⟩ <;> field_simp

lemma solF_eval (x : ℝ) : solF ⟨x, -1, -1⟩ = ⟨x ^ 2, 0, 0⟩ := by
  unfold solF
  norm_num

lemma norm3_sq (x : ℝ) : norm3 ⟨x ^ 2, 0, 0⟩ = x ^ 2 := by
  rw [norm3_single]
  exact abs_of_nonneg (sq_nonneg x)

lemma solve_bt_run (x : ℝ) (hx : 16 ≤ x) :
    backtrack_loop solF solJ (x ^ 2) ⟨x, -1, -1⟩ ⟨-(x / 2), 0, 0⟩ btFuel (1 * 10) =
      some (1, ⟨x / 2, -1, -1⟩) := by
  have hx0 : x ≠ 0 := by linarith
  have hx2 : x / 2 ≠ 0 := by intro h; apply hx0; linarith
  rw [show btFuel = 63 + 1 from rfl, backtrack_loop_succ,
    if_pos (by norm_num : (1e-6 : ℝ) < 1 * 10)]
  rw [show vadd ⟨x, -1, -1⟩ (vsmul ((1 * 10 : ℝ) / 10) ⟨-(x / 2), 0, 0⟩) =
      (⟨x / 2, -1, -1⟩ : Vec3) from by unfold vadd vsmul; norm_num; ring]
  rw [if_pos]
  · rw [show (1 * 10 : ℝ) / 10 = 1 by norm_num]
  · constructor
    · refine ⟨⟨2 * (x / 2), 0, 0, 0, 1, 0, 0, 0, 1⟩, solJ_eval _, ?_⟩
      rw [npInv_diag (x / 2) hx2]
      rfl
    · rw [solF_eval (x / 2), norm3_sq]
      nlinarith

lemma solve_run_step (k n : ℕ) (yp : Vec3) (x : ℝ) (hx : 16 ≤ x) :
    solve_loop solF solJ 1 1e-8 1e-8 (k + 1) yp ⟨x, -1, -1⟩ false n =
      solve_loop solF solJ 1 1e-8 1e-8 k ⟨x, -1, -1⟩ ⟨x / 2, -1, -1⟩ false (n + 1) := by
  have hx0 : x ≠ 0 := by linarith
  rw [solve_loop_succ, if_neg (by simp)]
  rw [solJ_eval ⟨x, -1, -1⟩]
  simp only []
  rw [npInv_diag x hx0]
  simp only []
  rw [solF_eval x, norm3_sq]
  rw [show vsmul (-1) (mulVec3 ⟨1 / (2 * x), 0, 0, 0, 1, 0, 0, 0, 1⟩ ⟨x ^ 2, 0, 0⟩) =
      (⟨-(x / 2), 0, 0⟩ : Vec3) from by
    unfold vsmul mulVec3
    norm_num
    field_simp
    ring]
  rw [solve_bt_run x hx]
  simp only []
  rw [show vsub ⟨x / 2, -1, -1⟩ ⟨x, -1, -1⟩ = (⟨-(x / 2), 0, 0⟩ : Vec3) from by
    unfold vsub; norm_num; ring]
  rw [show norm3 ⟨-(x / 2), 0, 0⟩ = x / 2 from by
    rw [norm3_single, abs_neg]; exact abs_of_nonneg (by linarith)]
  rw [if_neg (by push_neg; constructor <;> nlinarith)]

lemma solve_run (k : ℕ) :
    ∀ (n : ℕ) (yp : Vec3) (x : ℝ), 16 * 2 ^ k ≤ x →
      ∃ yf, solve_loop solF solJ 1 1e-8 1e-8 k yp ⟨x, -1, -1⟩ false n =
        .ok ⟨yf, n + k, false⟩ := by
  induction k with
  | zero =>
    intro n yp x hx
    exact ⟨yp, rfl⟩
  | succ k ih =>
    intro n yp x hx
    have hpow : (1 : ℝ) ≤ 2 ^ (k + 1) := one_le_pow₀ (by norm_num)
    have hx16 : 16 ≤ x := by nlinarith
    rw [solve_run_step k n yp x hx16]
    have hx2 : 16 * 2 ^ k ≤ x / 2 := by
      have h2 : (16 : ℝ) * 2 ^ (k + 1) = 2 * (16 * 2 ^ k) := by ring
      linarith
    obtain ⟨yf, hy⟩ := ih (n + 1) ⟨x, -1, -1⟩ (x / 2) hx2
    have hnn : n + 1 + k = n + (k + 1) := by omega
    rw [hnn] at hy
    exact ⟨yf, hy⟩

lemma solve_foc_core_run :
    ∃ yf, solve_foc_core solF solJ 1 1e-8 1e-8 35 ⟨(2 : ℝ) ^ 41, -1, -1⟩ =
      .ok ⟨yf, 36, false⟩ := by
  unfold solve_foc_core
  have hx : (16 : ℝ) * 2 ^ 36 ≤ 2 ^ 41 := by norm_num
  obtain ⟨yf, hy⟩ := solve_run 36 0 ⟨(2 : ℝ) ^ 41, -1, -1⟩ ((2 : ℝ) ^ 41) hx
  exact ⟨yf, hy⟩

/-- Counterexample for C4: on the synthetic foc `solF` from the iterate
`(2 ^ 41, -1, -1)`, with the source's parameters (`lambda = 1`,
`Ftol = htol = 1e-8`, `maxn = 35`), every backtracking step succeeds and
`solve_foc` executes its outer loop body 36 times — more than the claimed 35 —
before returning the unconverged iterate with a warning. -/
theorem c4_counterexample :
    Except.map SolveResult.n
        (solve_foc_core solF solJ 1 1e-8 1e-8 35 ⟨(2 : ℝ) ^ 41, -1, -1⟩) = .ok 36 ∧
      Except.map SolveResult.converged
        (solve_foc_core solF solJ 1 1e-8 1e-8 35 ⟨(2 : ℝ) ^ 41, -1, -1⟩) = .ok false ∧
      35 < 36 := by
  obtain ⟨yf, hy⟩ := solve_foc_core_run
  rw [hy]
  exact ⟨rfl, rfl, by norm_num⟩

/-- Witness for C4 at the 36-iteration run of the `solF` model. -/
theorem c4_witness :
    ∃ r : SolveResult,
      solve_foc_core solF solJ 1 1e-8 1e-8 35 ⟨(2 : ℝ) ^ 41, -1, -1⟩ = .ok r ∧
        r.n ≤ 35 + 1 ∧ (r.converged = false → r.n = 35 + 1) := by
  obtain ⟨yf, hy⟩ := solve_foc_core_run
  exact ⟨⟨yf, 36, false⟩, hy, c4_theorem solF solJ 1 1e-8 1e-8 35 _ _ hy⟩

/-- Witness for C9 at the model `M0` and the point `(1, 0, 0)`. -/
theorem c9_witness :
    make_sectoral_expenditure_share_of_consumption M0 .A 1 0 0 +
      make_sectoral_expenditure_share_of_consumption M0 .M 1 0 0 +
      make_sectoral_expenditure_share_of_consumption M0 .S 1 0 0 = 1 := by
  apply c9_theorem
  · rw [relCons_ArAh, leafA_M0]; norm_num
  · rw [relCons_MrMh, leafM_M0]; norm_num
  · rw [relCons_SrSh, leafS_M0]; norm_num
  · rw [relCons_ArSr, leafP_M0]; exact Real.rpow_pos_of_pos (by norm_num) _
  · rw [relCons_MrSr, leafQ_M0]; norm_num

end StructuralSchooling
